import Mathlib

/-! Verification of `write_instructions.py`, a single-purpose script that
writes a fixed text payload to a fixed destination path with UTF-8 encoding
and prints the payload's character count.

The shallow embedding models:

* the payload as a list of Unicode code points (`List Nat`), so that payloads
  containing code points UTF-8 cannot represent (lone surrogates) are
  expressible, exactly as they are in a Python `str`;
* the filesystem as a structure with a set of existing directories and a map
  from paths (component lists) to optional byte contents;
* `with open(d, 'w', encoding='utf-8') as f: f.write(content)` as the
  function `write`: opening fails (a `FileSystemError`, i.e. `OSError`) when
  the parent directory of `d` is missing or `d` itself is a directory; a
  successful open truncates the file at `d`; an encoding failure (an
  `EncodingError`, i.e. `UnicodeEncodeError` raised by `f.write`) leaves the
  truncated file behind (the payload is smaller than the text buffer, so no
  partial bytes reach the disk); on success the UTF-8 bytes are stored and
  `done <len(content)>` is printed.  The handle events of the `with` block
  (acquire on `open`, release on scope exit) are recorded in the result so
  that handle hygiene is provable for every exit path.
-/

namespace WriteInstructions

/-! ### UTF-8 encoding, as performed by Python's strict utf-8 codec -/

/-- A code point in the surrogate range `U+D800 ..= U+DFFF`; Python's strict
utf-8 codec refuses to encode these. -/
def surrogateCp (c : Nat) : Bool :=
  decide (0xD800 ≤ c ∧ c ≤ 0xDFFF)

/-- Encode one code point to UTF-8 bytes; `none` when the code point is not
representable (surrogate or out of Unicode range), which is the
`UnicodeEncodeError` condition of `f.write`. -/
def utf8EncodeCp (c : Nat) : Option (List Nat) :=
  if c < 0x80 then
    some [c]
  else if c < 0x800 then
    some [0xC0 + c / 0x40, 0x80 + c % 0x40]
  else if surrogateCp c then
    none
  else if c < 0x10000 then
    some [0xE0 + c / 0x1000, 0x80 + c / 0x40 % 0x40, 0x80 + c % 0x40]
  else if c < 0x110000 then
    some [0xF0 + c / 0x40000, 0x80 + c / 0x1000 % 0x40,
          0x80 + c / 0x40 % 0x40, 0x80 + c % 0x40]
  else
    none

/-- Encode a payload (sequence of code points) to UTF-8 bytes; `none` as soon
as any code point is unencodable. -/
def utf8Encode : List Nat → Option (List Nat)
  | [] => some []
  | c :: cs =>
    match utf8EncodeCp c, utf8Encode cs with
    | some b, some bs => some (b ++ bs)
    | _, _ => none

/-- A code point is representable in UTF-8 iff it is a Unicode scalar value:
below `0x110000` and not a surrogate. -/
def encodableCp (c : Nat) : Prop :=
  c < 0x110000 ∧ ¬ (0xD800 ≤ c ∧ c ≤ 0xDFFF)

instance (c : Nat) : Decidable (encodableCp c) := by
  unfold encodableCp; infer_instance

/-! ### UTF-8 decoding (strict, as Python's utf-8 codec reads a file back) -/

/-- A UTF-8 continuation byte `0x80 ..= 0xBF`. -/
def contByte (b : Nat) : Bool :=
  decide (0x80 ≤ b ∧ b < 0xC0)

/-- Decode one code point from a head byte `b` and the remaining bytes `bs`:
returns the code point and the unconsumed bytes.  Strict, as Python's utf-8
codec: rejects stray continuation bytes, overlong forms, surrogates and code
points beyond `U+10FFFF`. -/
def utf8DecodeOne (b : Nat) (bs : List Nat) : Option (Nat × List Nat) :=
  if b < 0x80 then
    some (b, bs)
  else if b < 0xC2 then
    none
  else if b < 0xE0 then
    match bs with
    | b1 :: rest =>
      if contByte b1 then
        some ((b - 0xC0) * 0x40 + (b1 - 0x80), rest)
      else none
    | [] => none
  else if b < 0xF0 then
    match bs with
    | b1 :: b2 :: rest =>
      if contByte b1 && contByte b2 then
        let c := (b - 0xE0) * 0x1000 + (b1 - 0x80) * 0x40 + (b2 - 0x80)
        if 0x800 ≤ c ∧ ¬ (0xD800 ≤ c ∧ c ≤ 0xDFFF) then
          some (c, rest)
        else none
      else none
    | _ => none
  else if b < 0xF5 then
    match bs with
    | b1 :: b2 :: b3 :: rest =>
      if contByte b1 && contByte b2 && contByte b3 then
        let c := (b - 0xF0) * 0x40000 + (b1 - 0x80) * 0x1000 +
                 (b2 - 0x80) * 0x40 + (b3 - 0x80)
        if 0x10000 ≤ c ∧ c < 0x110000 then
          some (c, rest)
        else none
      else none
    | _ => none
  else
    none

/-- `utf8DecodeOne` never returns more bytes than it was given. -/
theorem utf8DecodeOne_sublen (b : Nat) (bs : List Nat) (c : Nat) (rest : List Nat)
    (h : utf8DecodeOne b bs = some (c, rest)) : rest.length ≤ bs.length := by
  unfold utf8DecodeOne at h
  repeat' split at h
  all_goals simp_all
  all_goals omega

/-- Strict UTF-8 decoder for a whole byte sequence, mirroring what Python's
`open(..., encoding='utf-8')` accepts when the file is read back. -/
def utf8Decode (l : List Nat) : Option (List Nat) :=
  match l with
  | [] => some []
  | b :: bs =>
    match h : utf8DecodeOne b bs with
    | some (c, rest) => (utf8Decode rest).map (fun cs => c :: cs)
    | none => none
termination_by l.length
decreasing_by
  have := utf8DecodeOne_sublen _ _ _ _ h
  simp only [List.length_cons]
  omega

/-! ### Filesystem model and the write operation -/

/-- A filesystem path, as a list of components. -/
abbrev Path := List String

/-- The parent directory of a path. -/
def Path.parent (d : Path) : Path := d.dropLast

/-- Filesystem state: which directories exist, and the byte contents of each
existing regular file. -/
structure FS where
  dirs : Path → Bool
  files : Path → Option (List Nat)

/-- Create or replace the regular file at `d` with contents `bs`. -/
def FS.setFile (fs : FS) (d : Path) (bs : List Nat) : FS :=
  { fs with files := fun q => if q = d then some bs else fs.files q }

/-- Well-formedness of a filesystem: the parent directory of every existing
regular file exists. -/
def FS.wf (fs : FS) : Prop :=
  ∀ q bs, fs.files q = some bs → fs.dirs (Path.parent q) = true

/-- The two error kinds of the spec's taxonomy: `FileSystemError` is any
`OSError` from `open` (missing parent, path is a directory, ...);
`EncodingError` is `UnicodeEncodeError` from `f.write`. -/
inductive WError
  | fsError
  | encodingError
deriving DecidableEq

/-- File-handle events of the `with` block. -/
inductive HandleEvent
  | acquire
  | release
deriving DecidableEq

/-- Result of one invocation: the final filesystem, the outcome (character
count written, or error), what was printed to stdout, and the handle events
that occurred. -/
structure WResult where
  fs : FS
  outcome : Except WError Nat
  printed : Option (String × Nat)
  events : List HandleEvent

/-- `with open(d, 'w', encoding='utf-8') as f: f.write(p)` followed by
`print('done', len(p))`.

* `open(d, 'w')` fails with an `OSError` (no handle acquired, filesystem
  untouched) when `d` is a directory or its parent directory does not exist;
  otherwise it truncates the file at `d` to empty.
* `f.write(p)` raises `UnicodeEncodeError` when some code point of `p` is not
  UTF-8-encodable; the `with` block still closes the handle, leaving the
  truncated file.
* On success the file holds the UTF-8 encoding of `p`, the handle is closed,
  and `done <len(p)>` is printed. -/
def write (fs : FS) (p : List Nat) (d : Path) : WResult :=
  if fs.dirs d || !fs.dirs (Path.parent d) then
    { fs := fs, outcome := Except.error WError.fsError,
      printed := none, events := [] }
  else
    match utf8Encode p with
    | none =>
      { fs := fs.setFile d [], outcome := Except.error WError.encodingError,
        printed := none, events := [HandleEvent.acquire, HandleEvent.release] }
    | some bs =>
      { fs := (fs.setFile d []).setFile d bs, outcome := Except.ok p.length,
        printed := some ("done", p.length),
        events := [HandleEvent.acquire, HandleEvent.release] }

/-! ### The reference invocation: the embedded payload and destination -/

/-- The lines of the module-level string literal `content` of
`write_instructions.py`, after Python escape processing: `\uXXXX` escapes are
the corresponding characters, the invalid escapes `\<FF>` and `\,` stay
literally, `\\` is a single backslash, and a backslash before a newline is a
line continuation (so the fence lines `\\\` contribute a single backslash
glued to the following line, and the final element below is the trailing
backslash left before the closing quotes). -/
def contentLines : List String :=
  [ "# Copilot Instructions — forgekit-storybook-mcp",
    "",
    "## Project Overview",
    "",
    "**MCP (Model Context Protocol) server** that auto-generates Storybook stories, tests, and MDX docs for React component libraries. Published to npm as \\\x0Corgekit-storybook-mcp\\, runs as a CLI via stdio transport. It is **not** a React app—it analyzes and generates files in consumer projects. Requires **Node ≥ 20** and targets **Storybook 10+**.",
    "",
    "## Architecture",
    "",
    "\\src/",
    "  cli.ts              → Entry: loads .env/.env.local, resolves config, runs preflight + init sync, starts MCP server",
    "  index.ts            → MCP server: registers 15 tools via @modelcontextprotocol/sdk request handlers",
    "  tools.ts            → 15 tool functions: listComponents, analyzeComponent, generateStory, updateStory,",
    "                         validateStory, getStoryTemplate, listTemplates, getComponentCoverage, suggestStories,",
    "                         syncAll, syncComponent, generateTest, generateDocs, checkHealth, generateCodeConnect",
    "  types.ts            → All shared TypeScript interfaces + DEFAULT_CONFIG",
    "  utils/",
    "    scanner.ts          → Component discovery (fast-glob) + prop/dependency extraction via regex",
    "    generator.ts        → Story file generation (framework-aware: Chakra/shadcn/RN/etc.)",
    "    initializer.ts      → Startup sync engine: MD5 hash diff via .storybook-mcp-cache.json; file watcher",
    "    license.ts          → Polar license validation, 24h file cache, feature gating",
    "    setup.ts            → Storybook bootstrapper: .storybook/ config, Nx monorepo detection",
    "    templates.ts        → 8 built-in story templates (basic, with-controls, with-msw, form, etc.)",
    "    validator.ts        → Story validator: 8 rule categories, 0-100 score",
    "    test-generator.ts   → Generates Playwright or Vitest test files",
    "    docs-generator.ts   → Generates MDX documentation files",
    "    code-connect-generator.ts → Generates @figma/code-connect .figma.tsx files",
    "    story-merger.ts     → Pure functions: merges regenerated templates with user-added story blocks",
    "    story-history.ts    → Writes .forgekit/story-history.json (max 10 versions per story)",
    "    preflight.ts        → Storybook 10 compatibility checks before server starts",
    "    errors.ts           → StorybookMCPError class + ErrorCode enum (typed error codes)",
    "    constants.ts        → Single source of truth for all hardcoded values",
    "\\" ]

/-- The module-level `content` string of `write_instructions.py`
(2345 characters). -/
def content : String :=
  String.intercalate "\n" contentLines

/-- The payload as a sequence of Unicode code points, which is how `f.write`
consumes `content`. -/
def refPayload : List Nat :=
  content.data.map Char.toNat

/-- The destination path of the reference invocation: the raw string
`r'd:\\documents-from-c\\GitHub\\storybook-mcp-v2\\.github\\copilot-instructions.md'`
split into its path components (the OS collapses the doubled separators). -/
def refDest : Path :=
  ["d:", "documents-from-c", "GitHub", "storybook-mcp-v2",
   ".github", "copilot-instructions.md"]

/-- The whole program: one invocation of the writer on the embedded payload
and destination, from an arbitrary initial filesystem. -/
def mainProgram (fs : FS) : WResult :=
  write fs refPayload refDest

/-! ### Correctness of the UTF-8 codec pair -/

/-- The bytes produced for one encodable code point decode back to exactly
that code point, leaving any trailing bytes untouched. -/
theorem utf8DecodeOne_encodeCp (c : Nat) (bs rest : List Nat)
    (h : utf8EncodeCp c = some bs) :
    ∃ b tail, bs = b :: tail ∧ utf8DecodeOne b (tail ++ rest) = some (c, rest) := by
  unfold utf8EncodeCp at h
  by_cases h1 : c < 0x80
  · rw [if_pos h1] at h
    cases h
    refine ⟨c, [], rfl, ?_⟩
    unfold utf8DecodeOne
    rw [if_pos h1, List.nil_append]
  · rw [if_neg h1] at h
    by_cases h2 : c < 0x800
    · rw [if_pos h2] at h
      cases h
      refine ⟨0xC0 + c / 0x40, [0x80 + c % 0x40], rfl, ?_⟩
      unfold utf8DecodeOne
      rw [if_neg (by omega), if_neg (by omega), if_pos (by omega)]
      have hcont : contByte (0x80 + c % 0x40) = true := by
        simp only [contByte, decide_eq_true_eq]
        omega
      simp only [List.cons_append, List.nil_append, hcont, if_pos]
      have hcp : (0xC0 + c / 0x40 - 0xC0) * 0x40 + (0x80 + c % 0x40 - 0x80) = c := by
        omega
      rw [hcp]
    · rw [if_neg h2] at h
      by_cases h3 : surrogateCp c
      · rw [if_pos h3] at h
        cases h
      · rw [if_neg h3] at h
        have h3n : ¬ (0xD800 ≤ c ∧ c ≤ 0xDFFF) := by
          simpa [surrogateCp] using h3
        by_cases h4 : c < 0x10000
        · rw [if_pos h4] at h
          cases h
          refine ⟨0xE0 + c / 0x1000, [0x80 + c / 0x40 % 0x40, 0x80 + c % 0x40], rfl, ?_⟩
          unfold utf8DecodeOne
          rw [if_neg (by omega), if_neg (by omega), if_neg (by omega),
              if_pos (by omega)]
          have hc1 : contByte (0x80 + c / 0x40 % 0x40) = true := by
            simp only [contByte, decide_eq_true_eq]
            omega
          have hc2 : contByte (0x80 + c % 0x40) = true := by
            simp only [contByte, decide_eq_true_eq]
            omega
          simp only [List.cons_append, List.nil_append, hc1, hc2, Bool.and_self, if_pos]
          have hcp : (0xE0 + c / 0x1000 - 0xE0) * 0x1000 +
              (0x80 + c / 0x40 % 0x40 - 0x80) * 0x40 + (0x80 + c % 0x40 - 0x80) = c := by
            omega
          rw [hcp, if_pos ⟨by omega, h3n⟩]
        · rw [if_neg h4] at h
          by_cases h5 : c < 0x110000
          · rw [if_pos h5] at h
            cases h
            refine ⟨0xF0 + c / 0x40000,
              [0x80 + c / 0x1000 % 0x40, 0x80 + c / 0x40 % 0x40, 0x80 + c % 0x40], rfl, ?_⟩
            unfold utf8DecodeOne
            rw [if_neg (by omega), if_neg (by omega), if_neg (by omega),
                if_neg (by omega), if_pos (by omega)]
            have hc1 : contByte (0x80 + c / 0x1000 % 0x40) = true := by
              simp only [contByte, decide_eq_true_eq]
              omega
            have hc2 : contByte (0x80 + c / 0x40 % 0x40) = true := by
              simp only [contByte, decide_eq_true_eq]
              omega
            have hc3 : contByte (0x80 + c % 0x40) = true := by
              simp only [contByte, decide_eq_true_eq]
              omega
            simp only [List.cons_append, List.nil_append, hc1, hc2, hc3, Bool.and_self, if_pos]
            have hcp : (0xF0 + c / 0x40000 - 0xF0) * 0x40000 +
                (0x80 + c / 0x1000 % 0x40 - 0x80) * 0x1000 +
                (0x80 + c / 0x40 % 0x40 - 0x80) * 0x40 + (0x80 + c % 0x40 - 0x80) = c := by
              omega
            rw [hcp, if_pos (by omega)]
          · rw [if_neg h5] at h
            cases h

/-- Decoding the encoding of one code point followed by arbitrary bytes
decodes the code point and continues with the remaining bytes. -/
theorem utf8Decode_encodeCp_append (c : Nat) (bs rest : List Nat)
    (h : utf8EncodeCp c = some bs) :
    utf8Decode (bs ++ rest) = (utf8Decode rest).map (fun cs => c :: cs) := by
  obtain ⟨b, tail, hbs, hone⟩ := utf8DecodeOne_encodeCp c bs rest h
  subst hbs
  rw [List.cons_append, utf8Decode.eq_def]
  split
  · rename_i heq
    exact List.noConfusion heq
  · rename_i x b2 bs2 heq
    injection heq with hb hbs2
    subst hb
    subst hbs2
    split
    · rename_i c2 rest2 heq2
      rw [hone] at heq2
      have hpair : (c, rest) = (c2, rest2) := by
        injection heq2
      cases hpair
      rfl
    · rename_i heq2
      rw [hone] at heq2
      cases heq2

/-- Round-trip identity of the codec pair: a payload that UTF-8-encodes
successfully is recovered exactly by the strict decoder. -/
theorem utf8Decode_utf8Encode (p bytes : List Nat)
    (h : utf8Encode p = some bytes) :
    utf8Decode bytes = some p := by
  induction p generalizing bytes with
  | nil =>
    unfold utf8Encode at h
    cases h
    rw [utf8Decode.eq_def]
  | cons c cs ih =>
    unfold utf8Encode at h
    cases hc : utf8EncodeCp c with
    | none =>
      rw [hc] at h
      exact absurd h (by simp)
    | some b =>
      cases hcs : utf8Encode cs with
      | none =>
        rw [hc, hcs] at h
        exact absurd h (by simp)
      | some bs =>
        rw [hc, hcs] at h
        cases h
        rw [utf8Decode_encodeCp_append c b bs hc, ih bs hcs]
        rfl

/-! ### Encodability lemmas -/

/-- `utf8EncodeCp` fails exactly on the code points that are not Unicode
scalar values. -/
theorem utf8EncodeCp_eq_none_iff (c : Nat) :
    utf8EncodeCp c = none ↔ ¬ encodableCp c := by
  unfold utf8EncodeCp encodableCp
  repeat' split
  all_goals simp_all [surrogateCp]
  all_goals omega

/-- `utf8Encode` fails exactly when some code point of the payload is not
UTF-8-representable. -/
theorem utf8Encode_eq_none_iff (p : List Nat) :
    utf8Encode p = none ↔ ∃ c ∈ p, ¬ encodableCp c := by
  induction p with
  | nil => simp [utf8Encode]
  | cons c cs ih =>
    unfold utf8Encode
    cases hc : utf8EncodeCp c with
    | none =>
      simp only [List.mem_cons]
      constructor
      · intro _
        exact ⟨c, Or.inl rfl, (utf8EncodeCp_eq_none_iff c).mp hc⟩
      · intro _
        trivial
    | some b =>
      cases hcs : utf8Encode cs with
      | none =>
        simp only [List.mem_cons]
        constructor
        · intro _
          obtain ⟨x, hx, hxe⟩ := ih.mp hcs
          exact ⟨x, Or.inr hx, hxe⟩
        · intro _
          trivial
      | some bs =>
        simp only [List.mem_cons]
        constructor
        · intro hfalse
          exact absurd hfalse (by simp)
        · rintro ⟨x, hx | hx, hxe⟩
          · subst hx
            exact absurd hc (by rw [(utf8EncodeCp_eq_none_iff x).mpr hxe]; simp)
          · have : utf8Encode cs = none := ih.mpr ⟨x, hx, hxe⟩
            rw [this] at hcs
            cases hcs

/-- Every Lean `Char` is a Unicode scalar value, hence UTF-8-encodable. -/
theorem utf8EncodeCp_char_ne_none (c : Char) : utf8EncodeCp c.toNat ≠ none := by
  intro hnone
  have hv : c.toNat < 0xD800 ∨ (0xDFFF < c.toNat ∧ c.toNat < 0x110000) := c.valid
  rw [utf8EncodeCp_eq_none_iff] at hnone
  exact hnone ⟨by omega, by omega⟩

/-- A payload obtained from a Lean string always UTF-8-encodes. -/
theorem utf8Encode_map_char_ne_none (l : List Char) :
    utf8Encode (l.map Char.toNat) ≠ none := by
  induction l with
  | nil => simp [utf8Encode]
  | cons c cs ih =>
    rw [List.map_cons]
    unfold utf8Encode
    cases hc : utf8EncodeCp c.toNat with
    | none => exact absurd hc (utf8EncodeCp_char_ne_none c)
    | some b =>
      cases hcs : utf8Encode (cs.map Char.toNat) with
      | none => exact absurd hcs ih
      | some bs => simp

/-- The embedded payload of the reference invocation is UTF-8-safe. -/
theorem utf8Encode_refPayload_some : ∃ bs, utf8Encode refPayload = some bs := by
  have h := utf8Encode_map_char_ne_none content.data
  cases henc : utf8Encode refPayload with
  | none => exact absurd henc h
  | some bs => exact ⟨bs, rfl⟩

/-! ### Branch equations for `write` -/

/-- `write` when `open` fails: nothing happens beyond the surfaced error. -/
theorem write_eq_of_openFail (fs : FS) (p : List Nat) (d : Path)
    (h : (fs.dirs d || !fs.dirs (Path.parent d)) = true) :
    write fs p d =
      { fs := fs, outcome := Except.error WError.fsError,
        printed := none, events := [] } := by
  unfold write
  rw [if_pos h]

/-- `write` when `open` succeeds but the payload is unencodable: the file is
left truncated and the error surfaces after the handle closes. -/
theorem write_eq_of_encodeFail (fs : FS) (p : List Nat) (d : Path)
    (h : (fs.dirs d || !fs.dirs (Path.parent d)) = false)
    (henc : utf8Encode p = none) :
    write fs p d =
      { fs := fs.setFile d [], outcome := Except.error WError.encodingError,
        printed := none,
        events := [HandleEvent.acquire, HandleEvent.release] } := by
  unfold write
  rw [if_neg (by simp [h]), henc]

/-- `write` on the success path. -/
theorem write_eq_of_ok (fs : FS) (p : List Nat) (d : Path) (bs : List Nat)
    (h : (fs.dirs d || !fs.dirs (Path.parent d)) = false)
    (henc : utf8Encode p = some bs) :
    write fs p d =
      { fs := (fs.setFile d []).setFile d bs, outcome := Except.ok p.length,
        printed := some ("done", p.length),
        events := [HandleEvent.acquire, HandleEvent.release] } := by
  unfold write
  rw [if_neg (by simp [h]), henc]

/-- Writing a file never changes the directory structure. -/
theorem FS.setFile_dirs (fs : FS) (d : Path) (bs : List Nat) :
    (fs.setFile d bs).dirs = fs.dirs := rfl

/-- Looking up the file just written. -/
theorem FS.setFile_files_self (fs : FS) (d : Path) (bs : List Nat) :
    (fs.setFile d bs).files d = some bs := by
  simp [FS.setFile]

/-- Looking up a different file after a write. -/
theorem FS.setFile_files_other (fs : FS) (d : Path) (bs : List Nat) (q : Path)
    (hq : q ≠ d) : (fs.setFile d bs).files q = fs.files q := by
  simp [FS.setFile, hq]

/-- On the reference destination, a filesystem whose directory structure is
intact makes the reference invocation succeed and report the payload's
character count. -/
theorem mainProgram_ok (fs : FS) (hd : fs.dirs refDest = false)
    (hp : fs.dirs (Path.parent refDest) = true) :
    (mainProgram fs).outcome = Except.ok refPayload.length := by
  obtain ⟨bs, hbs⟩ := utf8Encode_refPayload_some
  rw [mainProgram, write_eq_of_ok fs refPayload refDest bs (by simp [hd, hp]) hbs]

/-! ### Sample filesystems used by the witnesses -/

/-- A sample filesystem: every path of at most one component (the root and
top-level directories such as `tmp`) is a directory; no files exist. -/
def sampleFS : FS where
  dirs := fun q => Nat.ble q.length 1
  files := fun _ => none

/-- Like `sampleFS`, but with prior content `OLD` at `tmp/out.txt`. -/
def sampleFS2 : FS where
  dirs := fun q => Nat.ble q.length 1
  files := fun q => if q = ["tmp", "out.txt"] then some [79, 76, 68] else none

/-- A filesystem in which the parent chain of the reference destination
exists (every path of at most five components is a directory); no files. -/
def winFS : FS where
  dirs := fun q => Nat.ble q.length 5
  files := fun _ => none

/-- Like `winFS`, but with prior content at the reference destination. -/
def winFS2 : FS where
  dirs := fun q => Nat.ble q.length 5
  files := fun q => if q = refDest then some [79, 76, 68] else none

/-! ### The claims -/

/-- C1 (content fidelity round-trip): for every payload `p` and destination
`d`, if `write p d utf-8` succeeds then decoding the bytes of the file at `d`
with the same encoding yields exactly `p`. -/
theorem write_roundTrip (fs : FS) (p : List Nat) (d : Path) (n : Nat)
    (h : (write fs p d).outcome = Except.ok n) :
    ∃ bs, (write fs p d).fs.files d = some bs ∧ utf8Decode bs = some p := by
  cases hopen : (fs.dirs d || !fs.dirs (Path.parent d)) with
  | true =>
    rw [write_eq_of_openFail fs p d hopen] at h
    exact absurd h (by simp)
  | false =>
    cases henc : utf8Encode p with
    | none =>
      rw [write_eq_of_encodeFail fs p d hopen henc] at h
      exact absurd h (by simp)
    | some bs =>
      rw [write_eq_of_ok fs p d bs hopen henc]
      exact ⟨bs, FS.setFile_files_self _ _ _, utf8Decode_utf8Encode p bs henc⟩

/-- Witness for C1: writing `hi` under an existing `tmp` directory. -/
theorem write_roundTrip_witness :
    ∃ bs, (write sampleFS [104, 105] ["tmp", "out.txt"]).fs.files ["tmp", "out.txt"] =
      some bs ∧ utf8Decode bs = some [104, 105] :=
  write_roundTrip sampleFS [104, 105] ["tmp", "out.txt"] 2 (by rfl)

/-- C2 (length reporting): when `write p d utf-8` succeeds, the count it
returns and the count it prints both equal the character length of `p` (not
the number of encoded bytes); for the empty payload the count is `0`. -/
theorem write_reportsLength (fs : FS) (p : List Nat) (d : Path) (n : Nat)
    (h : (write fs p d).outcome = Except.ok n) :
    n = p.length ∧ (write fs p d).printed = some ("done", p.length) := by
  cases hopen : (fs.dirs d || !fs.dirs (Path.parent d)) with
  | true =>
    rw [write_eq_of_openFail fs p d hopen] at h
    exact absurd h (by simp)
  | false =>
    cases henc : utf8Encode p with
    | none =>
      rw [write_eq_of_encodeFail fs p d hopen henc] at h
      exact absurd h (by simp)
    | some bs =>
      rw [write_eq_of_ok fs p d bs hopen henc] at h
      simp only at h
      injection h with hn
      rw [write_eq_of_ok fs p d bs hopen henc]
      exact ⟨hn.symm, rfl⟩

/-- Witness for C2: the empty payload reports count `0`. -/
theorem write_reportsLength_witness :
    0 = List.length ([] : List Nat) ∧
    (write sampleFS [] ["tmp", "empty.txt"]).printed =
      some ("done", List.length ([] : List Nat)) :=
  write_reportsLength sampleFS [] ["tmp", "empty.txt"] 0 (by rfl)

/-- C3 (overwrite, not append): if the destination already holds prior
content `q` different from what `p` would produce, a successful
`write p d utf-8` leaves the file holding exactly `p` (its UTF-8 bytes decode
to `p` and nothing else), with no remnant of `q`. -/
theorem write_overwritesPrior (fs : FS) (p : List Nat) (d : Path)
    (q : List Nat) (n : Nat)
    (hprior : fs.files d = some q) (hne : utf8Encode p ≠ some q)
    (h : (write fs p d).outcome = Except.ok n) :
    ∃ bs, (write fs p d).fs.files d = some bs ∧ utf8Decode bs = some p := by
  cases hopen : (fs.dirs d || !fs.dirs (Path.parent d)) with
  | true =>
    rw [write_eq_of_openFail fs p d hopen] at h
    exact absurd h (by simp)
  | false =>
    cases henc : utf8Encode p with
    | none =>
      rw [write_eq_of_encodeFail fs p d hopen henc] at h
      exact absurd h (by simp)
    | some bs =>
      rw [write_eq_of_ok fs p d bs hopen henc]
      exact ⟨bs, FS.setFile_files_self _ _ _, utf8Decode_utf8Encode p bs henc⟩

/-- Witness for C3: overwriting `OLD` with `NEW` at `tmp/out.txt`. -/
theorem write_overwritesPrior_witness :
    ∃ bs, (write sampleFS2 [78, 69, 87] ["tmp", "out.txt"]).fs.files ["tmp", "out.txt"] =
      some bs ∧ utf8Decode bs = some [78, 69, 87] :=
  write_overwritesPrior sampleFS2 [78, 69, 87] ["tmp", "out.txt"] [79, 76, 68] 3
    (by rfl) (by decide) (by rfl)

/-- C4 (failure on missing parent): on a well-formed filesystem, if the
parent directory of `d` does not exist then `write` fails with
`FileSystemError` and afterwards no file exists at `d`. -/
theorem write_missingParent (fs : FS) (p : List Nat) (d : Path)
    (hwf : fs.wf) (hpar : fs.dirs (Path.parent d) = false) :
    (write fs p d).outcome = Except.error WError.fsError ∧
    (write fs p d).fs.files d = none := by
  have hopen : (fs.dirs d || !fs.dirs (Path.parent d)) = true := by
    simp [hpar]
  rw [write_eq_of_openFail fs p d hopen]
  refine ⟨rfl, ?_⟩
  cases hf : fs.files d with
  | none => rfl
  | some bs =>
    have := hwf d bs hf
    rw [hpar] at this
    cases this

/-- Witness for C4: writing below a missing directory chain fails and
creates nothing. -/
theorem write_missingParent_witness :
    (write sampleFS [120] ["no", "such", "dir", "out.txt"]).outcome =
      Except.error WError.fsError ∧
    (write sampleFS [120] ["no", "such", "dir", "out.txt"]).fs.files
      ["no", "such", "dir", "out.txt"] = none :=
  write_missingParent sampleFS [120] ["no", "such", "dir", "out.txt"]
    (fun q bs h => Option.noConfusion h) (by rfl)

/-- C5 (all-or-nothing for the caller): every invocation either succeeds
with the full encoded payload on disk at the destination, or fails with a
surfaced error and no success signal; no success signal ever accompanies a
partial payload. -/
theorem write_allOrNothing (fs : FS) (p : List Nat) (d : Path) :
    (∃ bs, utf8Encode p = some bs ∧
      (write fs p d).outcome = Except.ok p.length ∧
      (write fs p d).fs.files d = some bs) ∨
    (∃ e, (write fs p d).outcome = Except.error e ∧
      (write fs p d).printed = none) := by
  cases hopen : (fs.dirs d || !fs.dirs (Path.parent d)) with
  | true =>
    right
    rw [write_eq_of_openFail fs p d hopen]
    exact ⟨WError.fsError, rfl, rfl⟩
  | false =>
    cases henc : utf8Encode p with
    | none =>
      right
      rw [write_eq_of_encodeFail fs p d hopen henc]
      exact ⟨WError.encodingError, rfl, rfl⟩
    | some bs =>
      left
      rw [write_eq_of_ok fs p d bs hopen henc]
      exact ⟨bs, rfl, rfl, FS.setFile_files_self _ _ _⟩

/-- C6 (idempotence): calling `write p d utf-8` twice in succession leaves
the same final file content at `d` as calling it once. -/
theorem write_idempotent (fs : FS) (p : List Nat) (d : Path) :
    (write (write fs p d).fs p d).fs.files d = (write fs p d).fs.files d := by
  cases hopen : (fs.dirs d || !fs.dirs (Path.parent d)) with
  | true =>
    simp only [write_eq_of_openFail fs p d hopen]
  | false =>
    cases henc : utf8Encode p with
    | none =>
      have hopen2 : ((fs.setFile d []).dirs d ||
          !(fs.setFile d []).dirs (Path.parent d)) = false := by
        rw [FS.setFile_dirs]
        exact hopen
      simp only [write_eq_of_encodeFail fs p d hopen henc]
      simp only [write_eq_of_encodeFail (fs.setFile d []) p d hopen2 henc]
      rw [FS.setFile_files_self, FS.setFile_files_self]
    | some bs =>
      have hopen2 : (((fs.setFile d []).setFile d bs).dirs d ||
          !((fs.setFile d []).setFile d bs).dirs (Path.parent d)) = false := by
        rw [FS.setFile_dirs, FS.setFile_dirs]
        exact hopen
      simp only [write_eq_of_ok fs p d bs hopen henc]
      simp only [write_eq_of_ok ((fs.setFile d []).setFile d bs) p d bs hopen2 henc]
      rw [FS.setFile_files_self, FS.setFile_files_self]

/-- C7 (encoding-error condition, raises-iff): with a writable destination,
`write` fails with `EncodingError` exactly when the payload contains a code
point not representable in UTF-8; and the embedded payload of the reference
invocation never triggers this failure, from any initial filesystem. -/
theorem write_encodingErrorIff (fs fs2 : FS) (p : List Nat) (d : Path)
    (hd : fs.dirs d = false) (hp : fs.dirs (Path.parent d) = true) :
    ((write fs p d).outcome = Except.error WError.encodingError ↔
      ∃ c ∈ p, ¬ encodableCp c) ∧
    (mainProgram fs2).outcome ≠ Except.error WError.encodingError := by
  have hopen : (fs.dirs d || !fs.dirs (Path.parent d)) = false := by
    simp [hd, hp]
  constructor
  · cases henc : utf8Encode p with
    | none =>
      rw [write_eq_of_encodeFail fs p d hopen henc]
      constructor
      · intro _
        exact (utf8Encode_eq_none_iff p).mp henc
      · intro _
        rfl
    | some bs =>
      rw [write_eq_of_ok fs p d bs hopen henc]
      constructor
      · intro hcontra
        exact absurd hcontra (by simp)
      · intro hex
        have hnone : utf8Encode p = none := (utf8Encode_eq_none_iff p).mpr hex
        rw [hnone] at henc
        cases henc
  · obtain ⟨bs, hbs⟩ := utf8Encode_refPayload_some
    cases hopen2 : (fs2.dirs refDest || !fs2.dirs (Path.parent refDest)) with
    | true =>
      rw [mainProgram, write_eq_of_openFail fs2 refPayload refDest hopen2]
      simp
    | false =>
      rw [mainProgram, write_eq_of_ok fs2 refPayload refDest bs hopen2 hbs]
      simp

/-- Witness for C7: a payload holding the lone surrogate `U+D800` raises the
encoding error at a writable destination, and the reference payload never
does. -/
theorem write_encodingErrorIff_witness :
    (((write sampleFS [0xD800] ["tmp", "bad.txt"]).outcome =
        Except.error WError.encodingError) ↔
      ∃ c ∈ [0xD800], ¬ encodableCp c) ∧
    (mainProgram sampleFS).outcome ≠ Except.error WError.encodingError :=
  write_encodingErrorIff sampleFS sampleFS [0xD800] ["tmp", "bad.txt"]
    (by rfl) (by rfl)

/-- C8 (frame condition): an invocation of `write` touches at most the file
at the destination path: every other file is unchanged and the directory
structure is unchanged everywhere. -/
theorem write_frame (fs : FS) (p : List Nat) (d : Path) (q : Path)
    (hq : q ≠ d) :
    (write fs p d).fs.files q = fs.files q ∧
    (∀ r, (write fs p d).fs.dirs r = fs.dirs r) := by
  cases hopen : (fs.dirs d || !fs.dirs (Path.parent d)) with
  | true =>
    rw [write_eq_of_openFail fs p d hopen]
    exact ⟨rfl, fun r => rfl⟩
  | false =>
    cases henc : utf8Encode p with
    | none =>
      rw [write_eq_of_encodeFail fs p d hopen henc]
      refine ⟨?_, fun r => ?_⟩
      · rw [FS.setFile_files_other _ _ _ _ hq]
      · rw [FS.setFile_dirs]
    | some bs =>
      rw [write_eq_of_ok fs p d bs hopen henc]
      refine ⟨?_, fun r => ?_⟩
      · rw [FS.setFile_files_other _ _ _ _ hq, FS.setFile_files_other _ _ _ _ hq]
      · rw [FS.setFile_dirs, FS.setFile_dirs]

/-- Witness for C8: writing to `tmp/out.txt` leaves `tmp/other.txt` and all
directories untouched. -/
theorem write_frame_witness :
    (write sampleFS2 [104] ["tmp", "out.txt"]).fs.files ["tmp", "other.txt"] =
      sampleFS2.files ["tmp", "other.txt"] ∧
    (∀ r, (write sampleFS2 [104] ["tmp", "out.txt"]).fs.dirs r = sampleFS2.dirs r) :=
  write_frame sampleFS2 [104] ["tmp", "out.txt"] ["tmp", "other.txt"] (by decide)

/-- C9 (scoped handle release): on every exit path — open failure, encoding
failure after the handle is acquired, or success — every acquired handle is
released before the operation returns: the handle events are balanced, being
either empty or exactly acquire-then-release. -/
theorem write_handleReleased (fs : FS) (p : List Nat) (d : Path) :
    ((write fs p d).events.count HandleEvent.acquire =
      (write fs p d).events.count HandleEvent.release) ∧
    ((write fs p d).events = [] ∨
      (write fs p d).events = [HandleEvent.acquire, HandleEvent.release]) := by
  cases hopen : (fs.dirs d || !fs.dirs (Path.parent d)) with
  | true =>
    rw [write_eq_of_openFail fs p d hopen]
    exact ⟨rfl, Or.inl rfl⟩
  | false =>
    cases henc : utf8Encode p with
    | none =>
      rw [write_eq_of_encodeFail fs p d hopen henc]
      exact ⟨rfl, Or.inr rfl⟩
    | some bs =>
      rw [write_eq_of_ok fs p d bs hopen henc]
      exact ⟨rfl, Or.inr rfl⟩

/-- C10 (determinism of the reference invocation): the program takes no
inputs, so any two successful runs report the same count, print the same
confirmation and leave identical content at the fixed destination,
independent of the prior filesystem content there. -/
theorem mainProgram_deterministic (fs1 fs2 : FS) (n1 n2 : Nat)
    (h1 : (mainProgram fs1).outcome = Except.ok n1)
    (h2 : (mainProgram fs2).outcome = Except.ok n2) :
    n1 = n2 ∧
    (mainProgram fs1).fs.files refDest = (mainProgram fs2).fs.files refDest ∧
    (mainProgram fs1).printed = (mainProgram fs2).printed := by
  obtain ⟨bs, hbs⟩ := utf8Encode_refPayload_some
  have key : ∀ fs : FS, ∀ n : Nat, (mainProgram fs).outcome = Except.ok n →
      n = refPayload.length ∧
      (mainProgram fs).fs.files refDest = some bs ∧
      (mainProgram fs).printed = some ("done", refPayload.length) := by
    intro fs n h
    cases hopen : (fs.dirs refDest || !fs.dirs (Path.parent refDest)) with
    | true =>
      rw [mainProgram, write_eq_of_openFail fs refPayload refDest hopen] at h
      exact absurd h (by simp)
    | false =>
      rw [mainProgram] at h ⊢
      rw [write_eq_of_ok fs refPayload refDest bs hopen hbs] at h
      simp only at h
      injection h with hn
      rw [write_eq_of_ok fs refPayload refDest bs hopen hbs]
      exact ⟨hn.symm, FS.setFile_files_self _ _ _, rfl⟩
  obtain ⟨ha1, hb1, hc1⟩ := key fs1 n1 h1
  obtain ⟨ha2, hb2, hc2⟩ := key fs2 n2 h2
  refine ⟨?_, ?_, ?_⟩
  · rw [ha1, ha2]
  · rw [hb1, hb2]
  · rw [hc1, hc2]

/-- Witness for C10: two runs from different initial filesystems — one with
prior content at the destination, one without — agree on count, content and
confirmation. -/
theorem mainProgram_deterministic_witness :
    refPayload.length = refPayload.length ∧
    (mainProgram winFS).fs.files refDest = (mainProgram winFS2).fs.files refDest ∧
    (mainProgram winFS).printed = (mainProgram winFS2).printed :=
  mainProgram_deterministic winFS winFS2 refPayload.length refPayload.length
    (mainProgram_ok winFS rfl rfl) (mainProgram_ok winFS2 rfl rfl)

end WriteInstructions
